import Mathlib

/-!
Verification of the qryn-client Loki module (`src/clients/loki.js`).

The development shallowly embeds the JavaScript source:

* `JVal` models the JavaScript/JSON value domain as seen by the client
  (property access, truthiness, string coercion), with `jundefined` for
  `undefined`.
* `jsonParse` models the `JSON.parse` builtin (returning `none` where the
  builtin throws a `SyntaxError`), `parseIntCore` models `parseInt`, both
  over exact integers/rationals in place of IEEE doubles; every value the
  claims exercise is exactly representable, so the idealization is
  conservative there.
* `parseLogs` embeds `Loki.parseLogs`; `Except` tracks the `TypeError`s the
  JavaScript code can raise, so "never raises" is a provable statement.
* The read operations (`query`, `queryRange`, `labels`, `labelValues`,
  `series`) and `Loki.push` are embedded with the transport passed in as a
  function, returning both the outcome and the list of network requests
  issued, so "no network call is made" is a provable statement.
-/

namespace Qryn

/-- The JavaScript value domain used by the client: JSON values plus
`undefined` (produced by property access on absent keys). Numbers are
modelled as exact rationals in place of IEEE doubles. -/
inductive JVal where
  | jundefined
  | jnull
  | jbool (b : Bool)
  | jnum (q : ℚ)
  | jstr (s : String)
  | jarr (xs : List JVal)
  | jobj (kvs : List (String × JVal))

/-- JavaScript truthiness (`!v` is the negation of this). `undefined`,
`null`, `false`, `0` and `""` are falsy; every object and array is truthy. -/
def jsTruthy : JVal → Bool
  | .jundefined => false
  | .jnull => false
  | .jbool b => b
  | .jnum q => if q = 0 then false else true
  | .jstr s => if s = "" then false else true
  | .jarr _ => true
  | .jobj _ => true

/-- Property access `v[k]`: object lookup (last binding wins, as for
duplicate keys in JavaScript objects), `undefined` on every other value.
The code only reads named properties off objects (`response`, `data`,
`result`, `resultType`, `values`, `stream`, `metric`). -/
def jsGet (v : JVal) (k : String) : JVal :=
  match v with
  | .jobj kvs =>
    match kvs.foldl (fun acc p => if p.1 = k then some p.2 else acc) none with
    | some w => w
    | none => .jundefined
  | _ => .jundefined

/-- The `x || {}` idiom used for the `labels` field of emitted records. -/
def jsOrEmptyObj (v : JVal) : JVal :=
  if jsTruthy v then v else .jobj []

mutual

/-- JavaScript `ToString` as used by `URLSearchParams`, template strings and
the builtins the client calls. Number formatting is exact only for integral
values of moderate size: a non-integral rational prints here as `num/den`
where JavaScript prints the shortest decimal (`1.5`), and JavaScript uses
exponent notation beyond 1e21. No theorem's conclusion depends on those
cases: record timestamps are restricted to digit strings (`goodTs`), the
`match[]` theorems quantify over string matchers, and for message values the
`JSON.parse`-or-keep fallback yields the original value on both sides (the
model keeps the unparseable `num/den` text's value, JavaScript re-parses the
decimal back to the same number). -/
def jsToString : JVal → String
  | .jundefined => "undefined"
  | .jnull => "null"
  | .jbool true => "true"
  | .jbool false => "false"
  | .jnum q => if q.den = 1 then toString q.num else toString q.num ++ "/" ++ toString q.den
  | .jstr s => s
  | .jarr xs => String.intercalate "," (jsToStringElems xs)
  | .jobj _ => "[object Object]"

/-- Elements of `Array.prototype.toString` (null and undefined print as the
empty string inside a joined array). -/
def jsToStringElems : List JVal → List String
  | [] => []
  | .jnull :: rest => "" :: jsToStringElems rest
  | .jundefined :: rest => "" :: jsToStringElems rest
  | v :: rest => jsToString v :: jsToStringElems rest

end

/-- Decimal digit test, written on code points so facts about it follow by
`omega`. -/
def isDig (c : Char) : Bool := 48 ≤ c.toNat && c.toNat ≤ 57

/-- Hexadecimal digit test. -/
def isHexDig (c : Char) : Bool :=
  (48 ≤ c.toNat && c.toNat ≤ 57) || (97 ≤ c.toNat && c.toNat ≤ 102)
    || (65 ≤ c.toNat && c.toNat ≤ 70)

/-- Value of one hexadecimal digit. -/
def hexDigVal (c : Char) : ℕ :=
  if 97 ≤ c.toNat then c.toNat - 87
  else if 65 ≤ c.toNat then c.toNat - 55
  else c.toNat - 48

/-- Value of a decimal digit string. -/
def digitsVal (ds : List Char) : ℕ :=
  ds.foldl (fun a c => 10 * a + (c.toNat - 48)) 0

/-- Value of a hexadecimal digit string. -/
def hexDigitsVal (ds : List Char) : ℕ :=
  ds.foldl (fun a c => 16 * a + hexDigVal c) 0

/-- The whitespace stripped by `parseInt` (the common JavaScript whitespace
code points). -/
def jsWs (c : Char) : Bool :=
  c.toNat = 32 || c.toNat = 9 || c.toNat = 10 || c.toNat = 13
    || c.toNat = 11 || c.toNat = 12 || c.toNat = 160

/-- Longest decimal-digit prefix, `none` (NaN) when it is empty. -/
def decDigits (cs : List Char) : Option ℕ :=
  let ds := cs.takeWhile isDig
  if ds = [] then none else some (digitsVal ds)

/-- Unsigned part of `parseInt` with no explicit radix: a `0x`/`0X` prefix
selects hexadecimal, otherwise the longest decimal-digit prefix is taken. -/
def parseIntUnsigned (cs : List Char) : Option ℕ :=
  match cs with
  | c0 :: c1 :: r =>
    if c0.toNat = 48 ∧ (c1.toNat = 120 ∨ c1.toNat = 88) then
      let ds := r.takeWhile isHexDig
      if ds = [] then none else some (hexDigitsVal ds)
    else decDigits (c0 :: c1 :: r)
  | _ => decDigits cs

/-- The `parseInt` builtin on a string: strip leading whitespace, optional
sign, longest digit prefix; `none` models `NaN`. The result is an exact
integer, which coincides with the JavaScript double for values below 2^53;
beyond that (17-or-more-digit strings) JavaScript rounds to the nearest
double, which this model does not reproduce — every theorem about emitted
records therefore restricts timestamps to values below 2^53 (`goodTs`). -/
def parseIntCore (s : String) : Option ℤ :=
  match s.data.dropWhile jsWs with
  | [] => none
  | c :: r =>
    if c.toNat = 45 then (parseIntUnsigned r).map (fun n => -(n : ℤ))
    else if c.toNat = 43 then (parseIntUnsigned r).map (fun n => (n : ℤ))
    else (parseIntUnsigned (c :: r)).map (fun n => (n : ℤ))

/-- `parseInt` applied to an arbitrary value coerces it to a string first. -/
def jsParseInt (v : JVal) : Option ℤ := parseIntCore (jsToString v)

/-- JSON whitespace. -/
def isJsonWs (c : Char) : Bool :=
  c.toNat = 32 || c.toNat = 9 || c.toNat = 10 || c.toNat = 13

/-- Drop leading JSON whitespace. -/
def skipWsL : List Char → List Char
  | [] => []
  | c :: cs => if isJsonWs c then skipWsL cs else c :: cs

/-- JSON string body after the opening quote; handles the JSON escapes,
rejects raw control characters, returns the decoded string and the rest. -/
def parseJStringAux : List Char → List Char → Option (String × List Char)
  | acc, '"' :: cs => some (String.mk acc.reverse, cs)
  | acc, '\\' :: e :: cs =>
    if e = '"' then parseJStringAux ('"' :: acc) cs
    else if e = '\\' then parseJStringAux ('\\' :: acc) cs
    else if e = '/' then parseJStringAux ('/' :: acc) cs
    else if e = 'b' then parseJStringAux ('\x08' :: acc) cs
    else if e = 'f' then parseJStringAux ('\x0c' :: acc) cs
    else if e = 'n' then parseJStringAux ('\n' :: acc) cs
    else if e = 'r' then parseJStringAux ('\x0d' :: acc) cs
    else if e = 't' then parseJStringAux ('\t' :: acc) cs
    else if e = 'u' then
      match cs with
      | a :: b :: c :: d :: cs' =>
        if isHexDig a && isHexDig b && isHexDig c && isHexDig d then
          let n := ((hexDigVal a * 16 + hexDigVal b) * 16 + hexDigVal c) * 16 + hexDigVal d
          parseJStringAux (Char.ofNat n :: acc) cs'
        else none
      | _ => none
    else none
  | acc, c :: cs => if c.toNat < 32 then none else parseJStringAux (c :: acc) cs
  | _, [] => none

/-- JSON number: optional sign, integer part without leading zeros, optional
fraction and exponent; the value is the exact rational. -/
def parseJNum (cs : List Char) : Option (ℚ × List Char) :=
  let (neg, cs1) :=
    match cs with
    | '-' :: r => (true, r)
    | _ => (false, cs)
  let intDs := cs1.takeWhile isDig
  let rest1 := cs1.dropWhile isDig
  if intDs = [] then none
  else if 2 ≤ intDs.length ∧ intDs.headD '0' = '0' then none
  else
    let step2 : Option (List Char × List Char) :=
      match rest1 with
      | '.' :: r =>
        let fds := r.takeWhile isDig
        if fds = [] then none else some (fds, r.dropWhile isDig)
      | _ => some ([], rest1)
    match step2 with
    | none => none
    | some (fracDs, rest2) =>
      let step3 : Option (ℤ × List Char) :=
        match rest2 with
        | 'e' :: r => parseJNumExp r
        | 'E' :: r => parseJNumExp r
        | _ => some (0, rest2)
      match step3 with
      | none => none
      | some (expVal, rest3) =>
        let base : ℚ :=
          (digitsVal intDs : ℚ) + (digitsVal fracDs : ℚ) / ((10 : ℚ) ^ fracDs.length)
        let signed := if neg then -base else base
        some (signed * (10 : ℚ) ^ expVal, rest3)
where
  /-- Exponent part after `e`/`E`. -/
  parseJNumExp (r : List Char) : Option (ℤ × List Char) :=
    let (eneg, r1) :=
      match r with
      | '-' :: t => (true, t)
      | '+' :: t => (false, t)
      | _ => (false, r)
    let eds := r1.takeWhile isDig
    if eds = [] then none
    else some (if eneg then -(digitsVal eds : ℤ) else (digitsVal eds : ℤ), r1.dropWhile isDig)

mutual

/-- JSON value parser (fuel-indexed recursive descent, modelling
`JSON.parse`; `none` models a thrown `SyntaxError`). -/
def parseJVal : ℕ → List Char → Option (JVal × List Char)
  | 0, _ => none
  | Nat.succ fuel, cs =>
    match skipWsL cs with
    | 'n' :: 'u' :: 'l' :: 'l' :: r => some (.jnull, r)
    | 't' :: 'r' :: 'u' :: 'e' :: r => some (.jbool true, r)
    | 'f' :: 'a' :: 'l' :: 's' :: 'e' :: r => some (.jbool false, r)
    | '"' :: r => (parseJStringAux [] r).map (fun p => (.jstr p.1, p.2))
    | '[' :: r =>
      match skipWsL r with
      | ']' :: r2 => some (.jarr [], r2)
      | r2 => parseJArrItems fuel r2 []
    | '{' :: r =>
      match skipWsL r with
      | '}' :: r2 => some (.jobj [], r2)
      | r2 => parseJObjItems fuel r2 []
    | cs2 => (parseJNum cs2).map (fun p => (.jnum p.1, p.2))

/-- Comma-separated array items up to the closing bracket. -/
def parseJArrItems : ℕ → List Char → List JVal → Option (JVal × List Char)
  | 0, _, _ => none
  | Nat.succ fuel, cs, acc =>
    match parseJVal fuel cs with
    | none => none
    | some (v, rest) =>
      match skipWsL rest with
      | ',' :: r2 => parseJArrItems fuel r2 (acc ++ [v])
      | ']' :: r2 => some (.jarr (acc ++ [v]), r2)
      | _ => none

/-- Comma-separated `"key": value` members up to the closing brace. -/
def parseJObjItems : ℕ → List Char → List (String × JVal) → Option (JVal × List Char)
  | 0, _, _ => none
  | Nat.succ fuel, cs, acc =>
    match skipWsL cs with
    | '"' :: r =>
      match parseJStringAux [] r with
      | none => none
      | some (k, r2) =>
        match skipWsL r2 with
        | ':' :: r3 =>
          match parseJVal fuel r3 with
          | none => none
          | some (v, r4) =>
            match skipWsL r4 with
            | ',' :: r5 => parseJObjItems fuel r5 (acc ++ [(k, v)])
            | '}' :: r5 => some (.jobj (acc ++ [(k, v)]), r5)
            | _ => none
        | _ => none
    | _ => none

end

/-- The `JSON.parse` builtin: parse one JSON value, requiring only trailing
whitespace after it; `none` models a thrown `SyntaxError`. -/
def jsonParse (s : String) : Option JVal :=
  match parseJVal (s.length + 1) s.data with
  | some (v, rest) => if skipWsL rest = [] then some v else none
  | none => none

/-- The normalizer's per-message `try { JSON.parse(message) } catch { message }`
fallback (`JSON.parse` coerces its argument to a string first). -/
def jsonParseOrKeep (v : JVal) : JVal :=
  match jsonParse (jsToString v) with
  | some parsed => parsed
  | none => v

/-- Truncation toward zero, as performed on the millisecond argument of the
`Date` constructor (`TimeClip`). -/
def ratTrunc (q : ℚ) : ℤ := if 0 ≤ q then ⌊q⌋ else -⌊-q⌋

/-- One record emitted by `Loki.parseLogs`. A record exists only when the
date is valid (see `mkRecord`): `timestampMs` is the value of
`parseInt(timestampNs) / 1000000`, `dateMs` is the time value of
`new Date(timestampMs)`, which truncates toward zero; the `dateISO` field of
the source is the fixed calendar formatting of `dateMs` and is not modelled
separately. -/
structure LogRecord where
  timestamp : JVal
  timestampMs : ℚ
  dateMs : ℤ
  message : JVal
  labels : JVal

/-- Construction of one emitted record from a `[timestampNs, message]` pair
and the ambient (raw, pre-`|| {}`) label value, exactly as both branches of
`Loki.parseLogs` do. The record object carries `dateISO: date.toISOString()`,
and `toISOString` throws a `RangeError` when the date is invalid — when
`parseInt` yielded `NaN`, or when the millisecond value lies outside the
`Date` range of ±8.64e15 (`TimeClip`); the `.error` branches model that
throw, which aborts the whole `parseLogs` call. -/
def mkRecord (tsNs msgV labelsV : JVal) : Except String LogRecord :=
  match jsParseInt tsNs with
  | none => .error "RangeError: Invalid time value"
  | some z =>
    if ((z : ℚ) / 1000000) < -8640000000000000 ∨ 8640000000000000 < ((z : ℚ) / 1000000) then
      .error "RangeError: Invalid time value"
    else
      .ok { timestamp := tsNs
            timestampMs := (z : ℚ) / 1000000
            dateMs := ratTrunc ((z : ℚ) / 1000000)
            message := jsonParseOrKeep msgV
            labels := jsOrEmptyObj labelsV }

/-- Per-entry emission: `if (!Array.isArray(entry) || entry.length < 2) return;`
then destructure the first two elements; a `RangeError` from the record
construction propagates. -/
def entryRecords (labelsV : JVal) : JVal → Except String (List LogRecord)
  | .jarr es =>
    if es.length < 2 then .ok []
    else (mkRecord (es.getD 0 .jundefined) (es.getD 1 .jundefined) labelsV).map (fun r => [r])
  | _ => .ok []

/-- One element of the `streams` result: skip it when `values` is falsy,
raise a `TypeError` when `values` is truthy but not an array (`forEach` on a
non-array), otherwise emit records for each entry under the element's
`stream` label set. -/
def streamRecords (streamV : JVal) : Except String (List LogRecord) :=
  let vs := jsGet streamV "values"
  if jsTruthy vs then
    match vs with
    | .jarr es => (es.mapM (entryRecords (jsGet streamV "stream"))).map List.flatten
    | _ => .error "TypeError: stream.values.forEach is not a function"
  else .ok []

/-- The destructuring `const [, logEntries] = bucket`: index 1 of an array
(or `undefined` past the end), the second character of a string, and a
`TypeError` on any non-iterable value. -/
def bucketEntriesV : JVal → Except String JVal
  | .jarr xs => .ok (xs.getD 1 .jundefined)
  | .jstr s =>
    match s.data.drop 1 with
    | c :: _ => .ok (.jstr (String.mk [c]))
    | [] => .ok .jundefined
  | _ => .error "TypeError: bucket is not iterable"

/-- The self-describing payload normalization
`Array.isArray(logEntries) && Array.isArray(logEntries[0]) ? logEntries : [logEntries]`. -/
def bucketPairs (le : JVal) : List JVal :=
  match le with
  | .jarr (first :: rest) =>
    match first with
    | .jarr _ => first :: rest
    | _ => [.jarr (first :: rest)]
  | _ => [le]

/-- One element of the `matrix` result: skip it when `values` is falsy,
`TypeError` when `values` is truthy but not an array, otherwise destructure
each bucket, normalize its payload and emit records under the element's
`metric` label set. -/
def seriesRecords (seriesV : JVal) : Except String (List LogRecord) :=
  let vs := jsGet seriesV "values"
  if jsTruthy vs then
    match vs with
    | .jarr buckets =>
      (buckets.mapM (fun b =>
        (bucketEntriesV b).bind
          (fun le =>
            ((bucketPairs le).mapM (entryRecords (jsGet seriesV "metric"))).map
              List.flatten))).map
        List.flatten
    | _ => .error "TypeError: series.values.forEach is not a function"
  else .ok []

/-- Strict equality of a value against a string literal (`v === "..."`). -/
def isStrEq (v : JVal) (s : String) : Bool :=
  match v with
  | .jstr t => t = s
  | _ => false

/-- Embedding of `Loki.parseLogs`. Returns `.error` exactly where the
JavaScript function would raise a `TypeError` (a `forEach` or destructuring
on a value of the wrong shape); every guard of the source is kept:
the `result?.response?.data?.result` truthiness gate, the branch on
`resultType`, the per-element and per-entry skips. -/
def parseLogs (result : JVal) : Except String (List LogRecord) :=
  let dataV := jsGet (jsGet result "response") "data"
  let resultsV := jsGet dataV "result"
  if jsTruthy resultsV then
    let resultType := jsGet dataV "resultType"
    if isStrEq resultType "streams" then
      match resultsV with
      | .jarr elems => (elems.mapM streamRecords).map List.flatten
      | _ => .error "TypeError: results.forEach is not a function"
    else if isStrEq resultType "matrix" then
      match resultsV with
      | .jarr elems => (elems.mapM seriesRecords).map List.flatten
      | _ => .error "TypeError: results.forEach is not a function"
    else .ok []
  else .ok []

/-- Modelled from the spec: the `GigapipeError` class (`src/types`, not among
the provided sources) as observed at every `new GigapipeError(message,
statusCode)` site — a classified error carrying a message and an optional
status code. -/
structure GigapipeError where
  message : String
  statusCode : Option ℚ
deriving DecidableEq

/-- A JavaScript error as seen by the `catch` handlers: either an already
classified `GigapipeError`, or any other error value exposing a message and
an optional `statusCode`. -/
inductive JsError where
  | giga (e : GigapipeError)
  | other (message : String) (statusCode : Option ℚ)
deriving DecidableEq

/-- The uniform `catch` handler of every operation:
`if (error instanceof GigapipeError) throw error;` else wrap the message
under an operation-specific text and keep `error.statusCode`. -/
def wrapT (pfx : String) : JsError → JsError
  | .giga e => .giga e
  | .other m c => .giga ⟨pfx ++ m, c⟩

/-- Modelled from the spec: section 7's error taxonomy. The code
distinguishes error kinds only through the fixed validation messages thrown
before any network call; everything else surfaces as a transport failure. -/
inductive ErrKind where
  | missingParameter
  | invalidInput
  | transportFailure
deriving DecidableEq

/-- Modelled from the spec: classification of a `GigapipeError` by its fixed
validation message, per section 7 of the spec. -/
def errKind (e : GigapipeError) : ErrKind :=
  if e.message = "Query parameter is required"
      ∨ e.message = "Start and end timestamps are required"
      ∨ e.message = "Label name parameter is required"
      ∨ e.message = "Match parameter is required" then
    .missingParameter
  else if e.message = "Match must be a string or array of strings"
      ∨ e.message = "Streams must be an array of Stream instances" then
    .invalidInput
  else .transportFailure

/-- A GET request issued by a read operation. `URLSearchParams` is modelled
as the ordered key-value list it holds; its percent-encoding serialization
is not at issue in any claim. -/
structure Request where
  path : String
  method : String
  params : List (String × String)
  headers : List (String × String)
deriving DecidableEq

/-- Options captured by `createReader` (`Read.headers` only reads `orgId`). -/
structure ReadOptions where
  orgId : JVal

/-- Per-call query options of the read operations (each consulted by
truthiness, never defaulted). -/
structure QueryOptions where
  limit : JVal
  start : JVal
  endV : JVal
  step : JVal
  parse : JVal

/-- `Read.headers()`. -/
def readHeaders (ropts : ReadOptions) : List (String × String) :=
  if jsTruthy ropts.orgId then [("X-Scope-OrgID", jsToString ropts.orgId)] else []

/-- A conditional `params.append(k, v)` (appended only when `v` is truthy,
with the JavaScript string coercion of `v`). -/
def appendIf (k : String) (v : JVal) : List (String × String) :=
  if jsTruthy v then [(k, jsToString v)] else []

/-- Result of `query`/`queryRange`: the raw transport response, or the
normalized records when `options.parse` is truthy. -/
inductive QueryResult where
  | raw (v : JVal)
  | parsed (logs : List LogRecord)

/-- The shared tail of `query` and `queryRange`: transport call, `catch`
wrapping, then the optional `parseLogs` piping (a `TypeError` raised by
`parseLogs` propagates unwrapped, since it happens after the `catch`). -/
def finishQueryOp (pfx : String) (qo : QueryOptions)
    (transport : Request → Except JsError JVal) (req : Request) :
    Except JsError QueryResult × List Request :=
  match transport req with
  | .error e => (.error (wrapT pfx e), [req])
  | .ok result =>
    if jsTruthy qo.parse then
      match parseLogs result with
      | .ok logs => (.ok (.parsed logs), [req])
      | .error m => (.error (.other m none), [req])
    else (.ok (.raw result), [req])

/-- Embedding of `Read.query`. The second component lists the network
requests actually issued. -/
def query (ropts : ReadOptions) (q : JVal) (qo : QueryOptions)
    (transport : Request → Except JsError JVal) :
    Except JsError QueryResult × List Request :=
  if jsTruthy q then
    finishQueryOp "Loki query failed: " qo transport
      { path := "/loki/api/v1/query"
        method := "GET"
        params := [("query", jsToString q)] ++ appendIf "limit" qo.limit
          ++ appendIf "start" qo.start ++ appendIf "end" qo.endV
        headers := readHeaders ropts }
  else (.error (.giga ⟨"Query parameter is required", none⟩), [])

/-- Embedding of `Read.queryRange`. -/
def queryRange (ropts : ReadOptions) (q startV endV : JVal) (qo : QueryOptions)
    (transport : Request → Except JsError JVal) :
    Except JsError QueryResult × List Request :=
  if jsTruthy q then
    if jsTruthy startV ∧ jsTruthy endV then
      finishQueryOp "Loki query range failed: " qo transport
        { path := "/loki/api/v1/query_range"
          method := "GET"
          params := [("query", jsToString q), ("start", jsToString startV),
              ("end", jsToString endV)]
            ++ appendIf "step" qo.step ++ appendIf "limit" qo.limit
          headers := readHeaders ropts }
    else (.error (.giga ⟨"Start and end timestamps are required", none⟩), [])
  else (.error (.giga ⟨"Query parameter is required", none⟩), [])

/-- The shared tail of `labels`, `labelValues` and `series`: one transport
call and the uniform `catch` wrapping. -/
def finishGetOp (pfx : String) (transport : Request → Except JsError JVal)
    (req : Request) : Except JsError JVal × List Request :=
  match transport req with
  | .error e => (.error (wrapT pfx e), [req])
  | .ok r => (.ok r, [req])

/-- Embedding of `Read.labels`. -/
def labels (ropts : ReadOptions) (qo : QueryOptions)
    (transport : Request → Except JsError JVal) :
    Except JsError JVal × List Request :=
  finishGetOp "Loki labels retrieval failed: " transport
    { path := "/loki/api/v1/labels"
      method := "GET"
      params := appendIf "start" qo.start ++ appendIf "end" qo.endV
      headers := readHeaders ropts }

/-- Embedding of `Read.labelValues`. -/
def labelValues (ropts : ReadOptions) (labelName : JVal) (qo : QueryOptions)
    (transport : Request → Except JsError JVal) :
    Except JsError JVal × List Request :=
  if jsTruthy labelName then
    finishGetOp "Loki label values retrieval failed: " transport
      { path := "/loki/api/v1/label/" ++ jsToString labelName ++ "/values"
        method := "GET"
        params := appendIf "start" qo.start ++ appendIf "end" qo.endV
        headers := readHeaders ropts }
  else (.error (.giga ⟨"Label name parameter is required", none⟩), [])

/-- Embedding of `Read.series`: `typeof match === 'string'` appends a single
`match[]` parameter, an array appends one per element in order, anything
else (while truthy) is rejected before the network call. -/
def series (ropts : ReadOptions) (matchV : JVal) (qo : QueryOptions)
    (transport : Request → Except JsError JVal) :
    Except JsError JVal × List Request :=
  if jsTruthy matchV then
    let base := appendIf "start" qo.start ++ appendIf "end" qo.endV
    let withMatch : Except GigapipeError (List (String × String)) :=
      match matchV with
      | .jstr s => .ok (base ++ [("match[]", s)])
      | .jarr xs => .ok (base ++ xs.map (fun m => ("match[]", jsToString m)))
      | _ => .error ⟨"Match must be a string or array of strings", none⟩
    match withMatch with
    | .error e => (.error (.giga e), [])
    | .ok ps =>
      finishGetOp "Loki series retrieval failed: " transport
        { path := "/loki/api/v1/series"
          method := "GET"
          params := ps
          headers := readHeaders ropts }
  else (.error (.giga ⟨"Match parameter is required", none⟩), [])

/-- The wire shape returned by `Stream.collect()`:
`{ labels, entries }` per section 4.1 of the spec. -/
structure CollectOut where
  labels : List (String × String)
  entries : List JVal

/-- Modelled from the spec: the `Stream` buffer class (`src/models`, not
among the provided sources), per section 4.1 — a label set, the ordered
pending entries (the `entries` field read by `Loki.push`), and the confirmed
entries. `collect` returns the wire shape without mutating; `confirm` moves
pending entries to confirmed; `undo` leaves pending entries pending. -/
structure Stream where
  labels : List (String × String)
  entries : List JVal
  confirmed : List JVal

/-- `Stream.collect()`. -/
def Stream.collect (s : Stream) : CollectOut := ⟨s.labels, s.entries⟩

/-- `Stream.confirm()` (must never raise). -/
def Stream.confirmOp (s : Stream) : Stream :=
  ⟨s.labels, [], s.confirmed ++ s.entries⟩

/-- `Stream.undo()` (must never raise; pending entries stay pending). -/
def Stream.undoOp (s : Stream) : Stream := s

/-- An element of the argument array of `push`: a `Stream` instance or any
other value (which fails the `instanceof` probe). -/
inductive PushElem where
  | stream (s : Stream)
  | notStream

/-- The argument of `push`: an array of elements, or any non-array value
(which fails `Array.isArray`). -/
inductive PushArg where
  | notArray
  | arr (elems : List PushElem)

/-- The `streams.every(...)` callback loop of `push`, with its payload
accumulation side effect: a `Stream` element pushes its `collect()` onto the
payload when it has a pending entry and yields a truthy value; any other
element yields `undefined`, stopping `every` with a falsy result. -/
def pushEvery : List PushElem → List CollectOut → List CollectOut × Bool
  | [], acc => (acc, true)
  | PushElem.stream s :: rest, acc =>
    pushEvery rest (if s.entries.length ≠ 0 then acc ++ [s.collect] else acc)
  | PushElem.notStream :: _, acc => (acc, false)

/-- Options of `Loki.push`, each consulted by truthiness. -/
structure PushOptions where
  orgId : JVal
  async : JVal
  fpLimit : JVal
  ttlDays : JVal

/-- `Loki.headers(options)`, including the source's `fpLimit`/`ttlDays`
header-name swap, reproduced as written. -/
def lokiHeaders (opts : PushOptions) : List (String × String) :=
  appendIf "X-Scope-OrgID" opts.orgId ++ appendIf "X-Async-Insert" opts.async
    ++ (if jsTruthy opts.fpLimit then [("X-Ttl-Days", jsToString opts.fpLimit)] else [])
    ++ (if jsTruthy opts.ttlDays then [("X-FP-LIMIT", jsToString opts.ttlDays)] else [])

/-- The POST request of `push`: its headers and the `streams` array of the
JSON body (`body: JSON.stringify(payload)` is modelled structurally). -/
structure PushRequest where
  headers : List (String × String)
  payload : List CollectOut

/-- A finalization call observed on the input sequence: `confirm()` or
`undo()` on the element at the given index. -/
inductive FinAct where
  | confirmAct (i : ℕ)
  | undoAct (i : ℕ)
deriving DecidableEq

/-- `confirm()` applied to an element (only reachable on `Stream`s). -/
def confirmElem : PushElem → PushElem
  | .stream s => .stream s.confirmOp
  | .notStream => .notStream

/-- `undo()` applied to an element (only reachable on `Stream`s). -/
def undoElem : PushElem → PushElem
  | .stream s => .stream s.undoOp
  | .notStream => .notStream

/-- The observable outcome of one `push` call: the resolved or rejected
result, the network requests issued, the finalization calls in order, and
the final buffer states. -/
structure PushOut where
  result : Except JsError JVal
  requests : List PushRequest
  trace : List FinAct
  buffers : PushArg

/-- Embedding of `Loki.push`: validation with payload collection, a single
POST, then `confirm()` on every input element in order on success, or
`undo()` on every input element in order plus classified re-raise on
failure. -/
def push (arg : PushArg) (opts : PushOptions)
    (transport : PushRequest → Except JsError JVal) : PushOut :=
  match arg with
  | .notArray =>
    { result := .error (.giga ⟨"Streams must be an array of Stream instances", none⟩)
      requests := []
      trace := []
      buffers := .notArray }
  | .arr elems =>
    let pe := pushEvery elems []
    if pe.2 = false then
      { result := .error (.giga ⟨"Streams must be an array of Stream instances", none⟩)
        requests := []
        trace := []
        buffers := .arr elems }
    else
      let req : PushRequest := ⟨lokiHeaders opts, pe.1⟩
      match transport req with
      | .ok r =>
        { result := .ok r
          requests := [req]
          trace := (List.range elems.length).map FinAct.confirmAct
          buffers := .arr (elems.map confirmElem) }
      | .error e =>
        { result := .error (wrapT "Loki push failed: " e)
          requests := [req]
          trace := (List.range elems.length).map FinAct.undoAct
          buffers := .arr (elems.map undoElem) }

/-! ### Specification-side definitions

Definitions in this section follow the spec's words, for comparison with the
embedded code above. -/

/-- The spec's words (section 4.2 / claim C3): the elements of the
input that are `Stream` instances, in order. -/
def streamsOf : List PushElem → List Stream
  | [] => []
  | PushElem.stream s :: rest => s :: streamsOf rest
  | PushElem.notStream :: rest => streamsOf rest

/-- Validation predicate: the input is an array whose every element is a
`Stream` instance (the condition under which `push`'s `every` loop yields a
truthy value for each element). -/
def allStream (elems : List PushElem) : Bool :=
  elems.all fun e =>
    match e with
    | .stream _ => true
    | .notStream => false

/-- The spec's words (claim C2): millisecond timestamp obtained from the
nanosecond timestamp by integer-truncating division by 1,000,000. -/
def specTruncMs (n : ℕ) : ℚ := ((n / 1000000 : ℕ) : ℚ)

/-- The spec's words (claim C5): a bucket is `[bucketTimestamp, payload]`;
the payload is its element at index 1. -/
def specPayload : JVal → JVal
  | .jarr xs => xs.getD 1 .jundefined
  | _ => .jundefined

/-- The spec's words (claim C5): the payload is a list of pairs when it is a
sequence whose first element is itself a sequence, and a single pair
otherwise. -/
def specBucketPairs (payload : JVal) : List JVal :=
  match payload with
  | .jarr ((.jarr f) :: rest) => .jarr f :: rest
  | _ => [payload]

/-- The spec's words (claim C5): emit one record per pair with at least two
elements, skipping the others, under the ambient label set. The spec assumes
well-formed (parseable, in-range) timestamps; the unparseable case, which
the code turns into a thrown `RangeError`, emits nothing here and is
excluded by the hypotheses of the theorems that use this definition. -/
def specEmit (labelsV : JVal) (p : JVal) : List LogRecord :=
  match p with
  | .jarr es =>
    if 2 ≤ es.length then
      match jsParseInt (es.getD 0 .jundefined) with
      | some z =>
        [{ timestamp := es.getD 0 .jundefined
           timestampMs := (z : ℚ) / 1000000
           dateMs := ratTrunc ((z : ℚ) / 1000000)
           message := jsonParseOrKeep (es.getD 1 .jundefined)
           labels := jsOrEmptyObj labelsV }]
      | none => []
    else []
  | _ => []

/-- A well-formed nanosecond timestamp value: a nonempty decimal digit
string whose value is below 2^53. Below that bound the JavaScript `parseInt`
result is exact, and the derived millisecond value (at most about 9.01e9)
lies far inside the ±8.64e15 `Date` range, so no `RangeError` can occur;
theorems about emitted records quantify over this domain, where the exact
integer model provably coincides with the IEEE behaviour of the code. -/
def goodTs (v : JVal) : Prop :=
  match v with
  | .jstr s => s.data ≠ [] ∧ (∀ c ∈ s.data, isDig c = true) ∧ digitsVal s.data < 2 ^ 53
  | _ => False

instance (v : JVal) : Decidable (goodTs v) :=
  match v with
  | .jstr s =>
    inferInstanceAs (Decidable (s.data ≠ [] ∧ (∀ c ∈ s.data, isDig c = true)
      ∧ digitsVal s.data < 2 ^ 53))
  | .jundefined => inferInstanceAs (Decidable False)
  | .jnull => inferInstanceAs (Decidable False)
  | .jbool _ => inferInstanceAs (Decidable False)
  | .jnum _ => inferInstanceAs (Decidable False)
  | .jarr _ => inferInstanceAs (Decidable False)
  | .jobj _ => inferInstanceAs (Decidable False)

/-- A `streams`-shaped response holding a single stream element with the
given raw label value and entry list. -/
def mkStreamsResp (lv : JVal) (entries : List JVal) : JVal :=
  .jobj [("response", .jobj [("data", .jobj
    [("resultType", .jstr "streams"),
     ("result", .jarr [.jobj [("stream", lv), ("values", .jarr entries)]])])])]

/-- A `matrix`-shaped response holding a single series element with the
given raw metric value and bucket list. -/
def mkMatrixResp (lv : JVal) (buckets : List JVal) : JVal :=
  .jobj [("response", .jobj [("data", .jobj
    [("resultType", .jstr "matrix"),
     ("result", .jarr [.jobj [("metric", lv), ("values", .jarr buckets)]])])])]

/-! ### Helper lemmas -/

theorem takeWhile_of_all {p : Char → Bool} :
    ∀ ds : List Char, (∀ c ∈ ds, p c = true) → ds.takeWhile p = ds := by
  intro ds h
  induction ds with
  | nil => rfl
  | cons c cs ih =>
    simp only [List.takeWhile_cons, h c (by simp), if_true]
    simp only [List.cons.injEq, true_and]
    exact ih fun x hx => h x (by simp [hx])

theorem isDig_not_jsWs {c : Char} (h : isDig c = true) : jsWs c = false := by
  simp only [isDig, Bool.and_eq_true, decide_eq_true_eq] at h
  simp only [jsWs, Bool.or_eq_false_iff, decide_eq_false_iff_not]
  omega

theorem parseIntCore_digits (ds : List Char) (hne : ds ≠ [])
    (hdig : ∀ c ∈ ds, isDig c = true) :
    parseIntCore (String.mk ds) = some ((digitsVal ds : ℤ)) := by
  have hdata : (String.mk ds).data = ds := rfl
  have hdrop : ds.dropWhile jsWs = ds := by
    cases ds with
    | nil => rfl
    | cons c cs =>
      have := isDig_not_jsWs (hdig c (by simp))
      simp [List.dropWhile_cons, this]
  have hdec : decDigits ds = some (digitsVal ds) := by
    unfold decDigits
    rw [takeWhile_of_all ds hdig]
    simp [hne]
  cases ds with
  | nil => exact absurd rfl hne
  | cons c cs =>
    have hc := hdig c (by simp)
    simp only [isDig, Bool.and_eq_true, decide_eq_true_eq] at hc
    unfold parseIntCore
    rw [hdata, hdrop]
    have h45 : ¬ c.toNat = 45 := by omega
    have h43 : ¬ c.toNat = 43 := by omega
    simp only [h45, if_false, h43]
    cases cs with
    | nil =>
      have hred : parseIntUnsigned [c] = decDigits [c] := rfl
      rw [hred, hdec]
      rfl
    | cons c1 cs1 =>
      have hc1 := hdig c1 (by simp)
      simp only [isDig, Bool.and_eq_true, decide_eq_true_eq] at hc1
      have hhex : ¬ (c.toNat = 48 ∧ (c1.toNat = 120 ∨ c1.toNat = 88)) := by omega
      simp only [parseIntUnsigned, hhex, if_false]
      rw [hdec]
      rfl

theorem pushEvery_of_allStream :
    ∀ (elems : List PushElem) (acc : List CollectOut), allStream elems = true →
      pushEvery elems acc =
        (acc ++ (streamsOf elems).flatMap
          (fun s => if s.entries.length ≠ 0 then [s.collect] else []), true) := by
  intro elems
  induction elems with
  | nil => intro acc _; simp [pushEvery, streamsOf]
  | cons e rest ih =>
    intro acc h
    cases e with
    | stream s =>
      have hrest : allStream rest = true := by simpa [allStream] using h
      by_cases hs : s.entries = []
      · simp [pushEvery, hs, streamsOf, ih _ hrest]
      · have hlen : s.entries.length ≠ 0 := by simpa using hs
        simp [pushEvery, hlen, streamsOf, ih _ hrest, List.append_assoc]
    | notStream => simp [allStream] at h

theorem pushEvery_snd_of_notStream :
    ∀ (elems : List PushElem) (acc : List CollectOut), allStream elems = false →
      (pushEvery elems acc).2 = false := by
  intro elems
  induction elems with
  | nil => intro acc h; simp [allStream] at h
  | cons e rest ih =>
    intro acc h
    cases e with
    | stream s =>
      have hrest : allStream rest = false := by simpa [allStream] using h
      simpa [pushEvery] using ih _ hrest
    | notStream => simp [pushEvery]

/-- The wire payload `push` constructs for a valid input: exactly the
non-empty buffers' `collect()` outputs, in input order. -/
def pushPayload (elems : List PushElem) : List CollectOut :=
  (streamsOf elems).flatMap (fun s => if s.entries.length ≠ 0 then [s.collect] else [])

theorem push_valid_unfold (elems : List PushElem) (opts : PushOptions)
    (transport : PushRequest → Except JsError JVal) (hval : allStream elems = true) :
    push (.arr elems) opts transport =
      match transport ⟨lokiHeaders opts, pushPayload elems⟩ with
      | .ok r =>
        { result := .ok r
          requests := [⟨lokiHeaders opts, pushPayload elems⟩]
          trace := (List.range elems.length).map FinAct.confirmAct
          buffers := .arr (elems.map confirmElem) }
      | .error e =>
        { result := .error (wrapT "Loki push failed: " e)
          requests := [⟨lokiHeaders opts, pushPayload elems⟩]
          trace := (List.range elems.length).map FinAct.undoAct
          buffers := .arr (elems.map undoElem) } := by
  have hpe := pushEvery_of_allStream elems [] hval
  simp only [push, hpe, List.nil_append]
  rfl

theorem push_invalid_unfold (arg : PushArg) (opts : PushOptions)
    (transport : PushRequest → Except JsError JVal)
    (h : arg = PushArg.notArray ∨ ∃ elems, arg = PushArg.arr elems ∧ allStream elems = false) :
    push arg opts transport =
      { result := .error (.giga ⟨"Streams must be an array of Stream instances", none⟩)
        requests := []
        trace := []
        buffers := arg } := by
  rcases h with h | ⟨elems, rfl, hfalse⟩
  · subst h; rfl
  · have := pushEvery_snd_of_notStream elems [] hfalse
    simp only [push, this]
    rfl

theorem mapM_ok_of_forall {α β : Type} (f : α → Except String β) (g : α → β) :
    ∀ l : List α, (∀ a ∈ l, f a = .ok (g a)) → l.mapM f = .ok (l.map g) := by
  intro l
  induction l with
  | nil => intro _; rfl
  | cons a t ih =>
    intro h
    rw [List.mapM_cons, h a (by simp), ih fun x hx => h x (by simp [hx])]
    rfl

theorem mapM_congr {α β : Type} {f g : α → Except String β} :
    ∀ l : List α, (∀ a ∈ l, f a = g a) → l.mapM f = l.mapM g := by
  intro l
  induction l with
  | nil => intro _; rfl
  | cons a t ih =>
    intro h
    rw [List.mapM_cons, List.mapM_cons, h a (by simp), ih fun x hx => h x (by simp [hx])]

theorem single_elem_pipeline {β : Type} (f : JVal → Except String (List β)) (v : JVal) :
    (([v].mapM f)).map List.flatten = f v := by
  cases hf : f v with
  | error e =>
    rw [List.mapM_cons, hf]
    rfl
  | ok l =>
    rw [List.mapM_cons, hf]
    show Except.ok (List.flatten [l]) = Except.ok l
    simp

theorem parseLogs_streams_single (lv : JVal) (entries : List JVal) :
    parseLogs (mkStreamsResp lv entries) =
      (entries.mapM (entryRecords lv)).map List.flatten := by
  have hstart : parseLogs (mkStreamsResp lv entries) =
      (([JVal.jobj [("stream", lv), ("values", .jarr entries)]].mapM streamRecords)).map
        List.flatten := rfl
  rw [hstart, single_elem_pipeline streamRecords _]
  rfl

theorem seriesRecords_arr (lv : JVal) (buckets : List JVal)
    (h : ∀ b ∈ buckets, ∃ xs, b = JVal.jarr xs) :
    seriesRecords (.jobj [("metric", lv), ("values", .jarr buckets)]) =
      (buckets.mapM (fun b =>
        ((bucketPairs (specPayload b)).mapM (entryRecords lv)).map List.flatten)).map
        List.flatten := by
  have hser : seriesRecords (.jobj [("metric", lv), ("values", .jarr buckets)]) =
      (buckets.mapM (fun b =>
        (bucketEntriesV b).bind
          (fun le => ((bucketPairs le).mapM (entryRecords lv)).map List.flatten))).map
        List.flatten := rfl
  rw [hser]
  congr 1
  apply mapM_congr
  intro b hb
  rcases h b hb with ⟨xs, rfl⟩
  rfl

theorem parseLogs_matrix_single (lv : JVal) (buckets : List JVal)
    (h : ∀ b ∈ buckets, ∃ xs, b = JVal.jarr xs) :
    parseLogs (mkMatrixResp lv buckets) =
      (buckets.mapM (fun b =>
        ((bucketPairs (specPayload b)).mapM (entryRecords lv)).map List.flatten)).map
        List.flatten := by
  have hstart : parseLogs (mkMatrixResp lv buckets) =
      (([JVal.jobj [("metric", lv), ("values", .jarr buckets)]].mapM seriesRecords)).map
        List.flatten := rfl
  rw [hstart, single_elem_pipeline seriesRecords _, seriesRecords_arr lv buckets h]

theorem mkRecord_ok (s : String) (msgV lv : JVal) (h : goodTs (.jstr s)) :
    mkRecord (.jstr s) msgV lv =
      .ok { timestamp := .jstr s
            timestampMs := ((digitsVal s.data : ℤ) : ℚ) / 1000000
            dateMs := ratTrunc (((digitsVal s.data : ℤ) : ℚ) / 1000000)
            message := jsonParseOrKeep msgV
            labels := jsOrEmptyObj lv } := by
  obtain ⟨hne, hdig, hlt⟩ := h
  have hpi : jsParseInt (.jstr s) = some ((digitsVal s.data : ℤ)) :=
    parseIntCore_digits s.data hne hdig
  have hq : ((digitsVal s.data : ℤ) : ℚ) = (digitsVal s.data : ℚ) := by push_cast; rfl
  have hnn : (0 : ℚ) ≤ (digitsVal s.data : ℚ) / 1000000 := by positivity
  have hub : (digitsVal s.data : ℚ) / 1000000 < 8640000000000000 := by
    rw [div_lt_iff₀ (by norm_num : (0 : ℚ) < 1000000)]
    have hcast : (digitsVal s.data : ℚ) < 2 ^ 53 := by exact_mod_cast hlt
    have : ((2 : ℚ) ^ 53) < 8640000000000000 * 1000000 := by norm_num
    linarith
  have hcond : ¬ (((digitsVal s.data : ℤ) : ℚ) / 1000000 < -8640000000000000
      ∨ 8640000000000000 < ((digitsVal s.data : ℤ) : ℚ) / 1000000) := by
    rw [hq]
    push_neg
    constructor
    · linarith
    · linarith
  simp only [mkRecord, hpi]
  rw [if_neg hcond]

theorem entryRecords_ok (lv : JVal) (p : JVal)
    (h : ∀ es, p = JVal.jarr es → 2 ≤ es.length → goodTs (es.getD 0 .jundefined)) :
    entryRecords lv p = .ok (specEmit lv p) := by
  have e1 : ∀ es : List JVal, entryRecords lv (.jarr es) =
      if es.length < 2 then .ok []
      else (mkRecord (es.getD 0 .jundefined) (es.getD 1 .jundefined) lv).map (fun r => [r]) :=
    fun es => rfl
  have e2 : ∀ es : List JVal, specEmit lv (.jarr es) =
      if 2 ≤ es.length then
        match jsParseInt (es.getD 0 .jundefined) with
        | some z =>
          [{ timestamp := es.getD 0 .jundefined
             timestampMs := (z : ℚ) / 1000000
             dateMs := ratTrunc ((z : ℚ) / 1000000)
             message := jsonParseOrKeep (es.getD 1 .jundefined)
             labels := jsOrEmptyObj lv }]
        | none => []
      else [] :=
    fun es => rfl
  cases p with
  | jarr es =>
    by_cases h2 : es.length < 2
    · rw [e1, e2, if_pos h2, if_neg (by omega)]
    · have hlen : 2 ≤ es.length := by omega
      have hg := h es rfl hlen
      cases hts : es.getD 0 .jundefined with
      | jstr s =>
        rw [hts] at hg
        have hpi : jsParseInt (.jstr s) = some ((digitsVal s.data : ℤ)) :=
          parseIntCore_digits s.data hg.1 hg.2.1
        rw [e1, e2, if_neg h2, if_pos hlen, hts, mkRecord_ok s (es.getD 1 .jundefined) lv hg]
        simp only [hpi]
        rfl
      | jundefined => rw [hts] at hg; exact absurd hg (by simp [goodTs])
      | jnull => rw [hts] at hg; exact absurd hg (by simp [goodTs])
      | jbool b => rw [hts] at hg; exact absurd hg (by simp [goodTs])
      | jnum q => rw [hts] at hg; exact absurd hg (by simp [goodTs])
      | jarr xs => rw [hts] at hg; exact absurd hg (by simp [goodTs])
      | jobj kvs => rw [hts] at hg; exact absurd hg (by simp [goodTs])
  | jundefined => rfl
  | jnull => rfl
  | jbool b => rfl
  | jnum q => rfl
  | jstr s => rfl
  | jobj kvs => rfl

theorem jsonParse_a1 : jsonParse "\x7b\"a\":1\x7d" = some (.jobj [("a", .jnum 1)]) := by
  have h : jsonParse "\x7b\"a\":1\x7d" = some (.jobj [("a", .jnum
      (((digitsVal ['1'] : ℚ) + (digitsVal ([] : List Char) : ℚ) / ((10 : ℚ) ^ (0 : ℕ)))
        * (10 : ℚ) ^ (0 : ℤ)))]) := rfl
  have h1 : digitsVal ['1'] = 1 := rfl
  have h0 : digitsVal ([] : List Char) = 0 := rfl
  rw [h, h1, h0]
  norm_num

/-! ### The claims -/

/-- C2, counterexample: the claim asserts that every emitted record's
millisecond timestamp is the nanosecond timestamp divided by 1,000,000 with
integer truncation. On the entry `["1500000","x"]` the code yields
`timestampMs = 3/2` (JavaScript float division, exact here since both
1500000 and 1.5 are exactly representable doubles), while truncating
division yields `1`. -/
theorem parseLogs_truncating_division_refuted :
    (parseLogs (mkStreamsResp (.jobj []) [.jarr [.jstr "1500000", .jstr "x"]])).map
        (List.map LogRecord.timestampMs) = .ok [(3 : ℚ) / 2]
    ∧ ((3 : ℚ) / 2) ≠ specTruncMs 1500000 := by
  constructor
  · rw [parseLogs_streams_single, single_elem_pipeline]
    show ((mkRecord (.jstr "1500000") (.jstr "x") (.jobj [])).map (fun r => [r])).map
        (List.map LogRecord.timestampMs) = _
    rw [mkRecord_ok "1500000" (.jstr "x") (.jobj []) (by decide)]
    show Except.ok [((digitsVal ("1500000".data) : ℤ) : ℚ) / 1000000] = _
    have hd : digitsVal ("1500000".data) = 1500000 := rfl
    rw [hd]
    norm_num
  · simp only [specTruncMs, ne_eq]
    norm_num

/-- C2 (amended): within the domain where the IEEE arithmetic of the code is
exact — nanosecond timestamps that are decimal strings with value below 2^53
(so `parseInt` returns the exact integer) and divisible by 5^6 = 15625 (so
the quotient by 10^6 = 2^6·5^6 is exactly representable as a double) — every
record emitted by the normalizer, in both the `streams` and the `matrix`
branch, carries a millisecond timestamp equal to the nanosecond timestamp
divided by 1,000,000 exactly, with no integer truncation (a fractional
result is kept), and a calendar timestamp equal to that value truncated
toward zero by the `Date` constructor. Outside this domain the code rounds
(`parseInt` beyond 2^53) or throws a `RangeError` (beyond the ±8.64e15
`Date` range), which `mkRecord` mirrors; the divisibility hypothesis is not
needed by the Lean proof and only marks the boundary inside which the
rational model provably coincides with the code's float arithmetic.
Normalizing a `streams` response with the single entry
`["1000000000","hello"]` yields exactly one record with `timestampMs =
1000`, message the text `"hello"`, and date the calendar timestamp for
epoch+1000ms. -/
theorem parseLogs_exact_division (ds : List Char) (hne : ds ≠ [])
    (hdig : ∀ c ∈ ds, isDig c = true) (hlt : digitsVal ds < 2 ^ 53)
    (_hdiv : digitsVal ds % 15625 = 0) (msg : String) (lv : JVal) :
    parseLogs (mkStreamsResp lv [.jarr [.jstr (String.mk ds), .jstr msg]]) =
      .ok [{ timestamp := .jstr (String.mk ds)
             timestampMs := ((digitsVal ds : ℤ) : ℚ) / 1000000
             dateMs := ratTrunc (((digitsVal ds : ℤ) : ℚ) / 1000000)
             message := jsonParseOrKeep (.jstr msg)
             labels := jsOrEmptyObj lv }]
    ∧ parseLogs (mkMatrixResp lv
        [.jarr [.jnum 1000, .jarr [.jarr [.jstr (String.mk ds), .jstr msg]]]]) =
      .ok [{ timestamp := .jstr (String.mk ds)
             timestampMs := ((digitsVal ds : ℤ) : ℚ) / 1000000
             dateMs := ratTrunc (((digitsVal ds : ℤ) : ℚ) / 1000000)
             message := jsonParseOrKeep (.jstr msg)
             labels := jsOrEmptyObj lv }]
    ∧ parseLogs (mkStreamsResp (.jobj []) [.jarr [.jstr "1000000000", .jstr "hello"]]) =
      .ok [{ timestamp := .jstr "1000000000"
             timestampMs := 1000
             dateMs := 1000
             message := .jstr "hello"
             labels := .jobj [] }] := by
  have hg : goodTs (.jstr (String.mk ds)) := ⟨hne, hdig, hlt⟩
  have hrec : entryRecords lv (.jarr [.jstr (String.mk ds), .jstr msg]) =
      .ok [{ timestamp := .jstr (String.mk ds)
             timestampMs := ((digitsVal ds : ℤ) : ℚ) / 1000000
             dateMs := ratTrunc (((digitsVal ds : ℤ) : ℚ) / 1000000)
             message := jsonParseOrKeep (.jstr msg)
             labels := jsOrEmptyObj lv }] := by
    show (mkRecord (.jstr (String.mk ds)) (.jstr msg) lv).map (fun r => [r]) = _
    rw [mkRecord_ok (String.mk ds) (.jstr msg) lv hg]
    rfl
  refine ⟨?_, ?_, ?_⟩
  · rw [parseLogs_streams_single, single_elem_pipeline]
    exact hrec
  · rw [parseLogs_matrix_single lv _ (by intro _b hb; simp at hb; exact ⟨_, hb⟩),
      single_elem_pipeline]
    show (([(.jarr [.jstr (String.mk ds), .jstr msg] : JVal)].mapM
        (entryRecords lv)).map List.flatten) = _
    rw [single_elem_pipeline]
    exact hrec
  · rw [parseLogs_streams_single, single_elem_pipeline]
    show (mkRecord (.jstr "1000000000") (.jstr "hello") (.jobj [])).map (fun r => [r]) = _
    rw [mkRecord_ok "1000000000" (.jstr "hello") (.jobj []) (by decide)]
    have h1 : ((digitsVal ("1000000000".data) : ℤ) : ℚ) / 1000000 = 1000 := by
      have hd : digitsVal ("1000000000".data) = 1000000000 := rfl
      rw [hd]
      norm_num
    have h2 : ratTrunc (((digitsVal ("1000000000".data) : ℤ) : ℚ) / 1000000) = 1000 := by
      rw [h1]
      unfold ratTrunc
      rw [if_pos (by norm_num)]
      norm_num
    have h3 : jsonParseOrKeep (.jstr "hello") = .jstr "hello" := rfl
    show Except.ok
        [({ timestamp := JVal.jstr "1000000000",
            timestampMs := ((digitsVal ("1000000000".data) : ℤ) : ℚ) / 1000000,
            dateMs := ratTrunc (((digitsVal ("1000000000".data) : ℤ) : ℚ) / 1000000),
            message := jsonParseOrKeep (JVal.jstr "hello"),
            labels := jsOrEmptyObj (JVal.jobj []) } : LogRecord)] = _
    rw [h2, h1, h3]
    rfl

theorem parseLogs_exact_division_witness :
    parseLogs (mkStreamsResp (.jobj []) [.jarr [.jstr "1000000000", .jstr "hello"]]) =
      .ok [{ timestamp := .jstr "1000000000"
             timestampMs := 1000
             dateMs := 1000
             message := .jstr "hello"
             labels := .jobj [] }] :=
  (parseLogs_exact_division ['1','0','0','0','0','0','0','0','0','0'] (by decide) (by decide)
    (by decide) (by decide) "hello" (.jobj [])).2.2

/-- C5: in the matrix branch, for buckets that are arrays whose pairs carry
well-formed timestamps (see `goodTs`; outside that domain the code rounds or
throws a `RangeError`, which the embedding mirrors in `mkRecord`), every
bucket's payload is normalized by the self-describing rule (a sequence whose
first element is itself a sequence is a list of pairs, anything else is a
single pair), and one record is emitted per pair with at least two elements
under the element's metric; the concrete bucket
`[1000, [["2000000000", "{\"a\":1}"]]]` yields one record whose message is
the decoded object `{a: 1}`. -/
theorem matrix_bucket_normalization (lv : JVal) (buckets : List JVal)
    (h : ∀ b ∈ buckets, ∃ xs, b = JVal.jarr xs)
    (hts : ∀ b ∈ buckets, ∀ p ∈ specBucketPairs (specPayload b),
        ∀ es, p = JVal.jarr es → 2 ≤ es.length → goodTs (es.getD 0 .jundefined)) :
    parseLogs (mkMatrixResp lv buckets) =
      .ok (buckets.flatMap fun b => (specBucketPairs (specPayload b)).flatMap (specEmit lv))
    ∧ (∀ p, bucketPairs p = specBucketPairs p)
    ∧ (∀ p, (∀ es, p = JVal.jarr es → 2 ≤ es.length → goodTs (es.getD 0 .jundefined)) →
        entryRecords lv p = .ok (specEmit lv p))
    ∧ (parseLogs (mkMatrixResp (.jobj [("job", .jstr "a")])
        [.jarr [.jnum 1000, .jarr [.jarr [.jstr "2000000000", .jstr "\x7b\"a\":1\x7d"]]]])).map
        (List.map LogRecord.message) = .ok [JVal.jobj [("a", .jnum 1)]] := by
  have hbp : ∀ p, bucketPairs p = specBucketPairs p := by
    intro p
    cases p with
    | jarr xs =>
      cases xs with
      | nil => rfl
      | cons f rest => cases f <;> rfl
    | jundefined => rfl
    | jnull => rfl
    | jbool b => rfl
    | jnum q => rfl
    | jstr s => rfl
    | jobj kvs => rfl
  refine ⟨?_, hbp, fun p hp => entryRecords_ok lv p hp, ?_⟩
  · rw [parseLogs_matrix_single lv buckets h]
    have hG := mapM_ok_of_forall
      (fun b => ((bucketPairs (specPayload b)).mapM (entryRecords lv)).map List.flatten)
      (fun b => (specBucketPairs (specPayload b)).flatMap (specEmit lv))
      buckets
      (by
        intro b hb
        show ((bucketPairs (specPayload b)).mapM (entryRecords lv)).map List.flatten =
          .ok ((specBucketPairs (specPayload b)).flatMap (specEmit lv))
        rw [hbp (specPayload b)]
        rw [mapM_ok_of_forall (entryRecords lv) (specEmit lv) _
          (fun p hp => entryRecords_ok lv p (hts b hb p hp))]
        rfl)
    rw [hG]
    rfl
  · have hconc : entryRecords (.jobj [("job", .jstr "a")])
        (.jarr [.jstr "2000000000", .jstr "\x7b\"a\":1\x7d"]) =
        .ok (specEmit (.jobj [("job", .jstr "a")])
          (.jarr [.jstr "2000000000", .jstr "\x7b\"a\":1\x7d"])) :=
      entryRecords_ok _ _ (by
        intro es hes _hlen
        injection hes with hh
        subst hh
        decide)
    rw [parseLogs_matrix_single _ _ (by intro _b hb; simp at hb; exact ⟨_, hb⟩),
      single_elem_pipeline]
    show ((([(.jarr [.jstr "2000000000", .jstr "\x7b\"a\":1\x7d"] : JVal)].mapM
        (entryRecords (.jobj [("job", .jstr "a")]))).map List.flatten)).map
        (List.map LogRecord.message) = _
    rw [single_elem_pipeline, hconc]
    show Except.ok [jsonParseOrKeep (.jstr "\x7b\"a\":1\x7d")] = _
    rw [show jsonParseOrKeep (.jstr "\x7b\"a\":1\x7d") = .jobj [("a", .jnum 1)] from by
      unfold jsonParseOrKeep
      rw [show jsToString (.jstr "\x7b\"a\":1\x7d") = "\x7b\"a\":1\x7d" from rfl,
        jsonParse_a1]]

theorem matrix_bucket_normalization_witness :
    (parseLogs (mkMatrixResp (.jobj [("job", .jstr "a")])
        [.jarr [.jnum 1000, .jarr [.jarr [.jstr "2000000000", .jstr "\x7b\"a\":1\x7d"]]]])).map
        (List.map LogRecord.message) = .ok [JVal.jobj [("a", .jnum 1)]] :=
  (matrix_bucket_normalization (.jobj [("job", .jstr "a")])
    [.jarr [.jnum 1000, .jarr [.jarr [.jstr "2000000000", .jstr "\x7b\"a\":1\x7d"]]]]
    (fun _b hb => ⟨_, List.mem_singleton.mp hb⟩)
    (by
      intro b hb p hp es hes _hlen
      rw [List.mem_singleton.mp hb] at hp
      have hps : specBucketPairs (specPayload (JVal.jarr [.jnum 1000,
          .jarr [.jarr [.jstr "2000000000", .jstr "\x7b\"a\":1\x7d"]]])) =
          [.jarr [.jstr "2000000000", .jstr "\x7b\"a\":1\x7d"]] := rfl
      rw [hps] at hp
      rw [List.mem_singleton.mp hp] at hes
      injection hes with hh
      subst hh
      decide)).2.2.2

/-- C6: when the nested result field is absent (the optional-chain guard is
falsy) or the result-type tag is neither `"streams"` nor `"matrix"`, the
normalizer returns the empty sequence and raises no error. -/
theorem parseLogs_missing_or_unknown_empty (v : JVal)
    (h : jsTruthy (jsGet (jsGet (jsGet v "response") "data") "result") = false
      ∨ (isStrEq (jsGet (jsGet (jsGet v "response") "data") "resultType") "streams" = false
         ∧ isStrEq (jsGet (jsGet (jsGet v "response") "data") "resultType") "matrix" = false)) :
    parseLogs v = .ok [] := by
  unfold parseLogs
  rcases h with h | ⟨h1, h2⟩
  · simp [h]
  · simp [h1, h2]

theorem parseLogs_missing_or_unknown_empty_witness :
    parseLogs (.jobj []) = .ok [] ∧ parseLogs (mkStreamsResp .jundefined []) ≠ .error "x" :=
  ⟨parseLogs_missing_or_unknown_empty (.jobj []) (Or.inl rfl), by
    rw [parseLogs_streams_single]
    exact fun hc => Except.noConfusion hc⟩

theorem flatMap_collect_eq_filter (ss : List Stream) :
    ss.flatMap (fun s => if s.entries.length ≠ 0 then [s.collect] else []) =
      (ss.filter (fun s => !s.entries.isEmpty)).map Stream.collect := by
  induction ss with
  | nil => rfl
  | cons s t ih =>
    rw [List.flatMap_cons, ih, List.filter_cons]
    by_cases hs : s.entries = []
    · simp [hs]
    · have hlen : s.entries.length ≠ 0 := by simpa using hs
      simp [hs, hlen]

/-- C1: for every validated `push` input, a resolving transport call leads
to `confirm()` on every buffer in input order, a rejecting transport call
leads to `undo()` on every buffer in input order with the (classified)
error re-raised, and no call mixes confirmations with undos. -/
theorem push_all_or_nothing (elems : List PushElem) (opts : PushOptions)
    (transport : PushRequest → Except JsError JVal)
    (hval : allStream elems = true) :
    ((push (.arr elems) opts transport).trace
        = (List.range elems.length).map FinAct.confirmAct
      ∨ (push (.arr elems) opts transport).trace
        = (List.range elems.length).map FinAct.undoAct)
    ∧ (∀ r, transport ⟨lokiHeaders opts, pushPayload elems⟩ = .ok r →
        (push (.arr elems) opts transport).result = .ok r
        ∧ (push (.arr elems) opts transport).trace
            = (List.range elems.length).map FinAct.confirmAct)
    ∧ (∀ e, transport ⟨lokiHeaders opts, pushPayload elems⟩ = .error e →
        (push (.arr elems) opts transport).trace
            = (List.range elems.length).map FinAct.undoAct
        ∧ (push (.arr elems) opts transport).result
            = .error (wrapT "Loki push failed: " e))
    ∧ (∀ i j, ¬ (FinAct.confirmAct i ∈ (push (.arr elems) opts transport).trace
        ∧ FinAct.undoAct j ∈ (push (.arr elems) opts transport).trace)) := by
  have hu := push_valid_unfold elems opts transport hval
  cases htr : transport ⟨lokiHeaders opts, pushPayload elems⟩ with
  | ok r =>
    rw [htr] at hu
    refine ⟨Or.inl (by rw [hu]), ?_, ?_, ?_⟩
    · intro r' hr'
      injection hr' with hrr
      subst hrr
      exact ⟨by rw [hu], by rw [hu]⟩
    · intro e he
      exact Except.noConfusion he
    · intro i j hij
      rw [hu] at hij
      rcases hij with ⟨hc, hun⟩
      simp [List.mem_map] at hun
  | error e =>
    rw [htr] at hu
    refine ⟨Or.inr (by rw [hu]), ?_, ?_, ?_⟩
    · intro r' hr'
      exact Except.noConfusion hr'
    · intro e' he'
      injection he' with hee
      subst hee
      exact ⟨by rw [hu], by rw [hu]⟩
    · intro i j hij
      rw [hu] at hij
      rcases hij with ⟨hc, hun⟩
      simp [List.mem_map] at hc

theorem push_all_or_nothing_witness :
    (push (.arr [.stream ⟨[("job", "app")], [.jstr "line1"], []⟩, .stream ⟨[], [], []⟩])
        ⟨.jundefined, .jundefined, .jundefined, .jundefined⟩ (fun _ => .ok (.jstr "created"))).trace
      = [FinAct.confirmAct 0, FinAct.confirmAct 1] := by
  have h := (push_all_or_nothing
    [.stream ⟨[("job", "app")], [.jstr "line1"], []⟩, .stream ⟨[], [], []⟩]
    ⟨.jundefined, .jundefined, .jundefined, .jundefined⟩ (fun _ => .ok (.jstr "created")) rfl).2.1
    (.jstr "created") rfl
  exact h.2.trans rfl

/-- C3: for every validated `push` input, the single wire payload contains
exactly the non-empty buffers' collected shapes in input order (empty
buffers are skipped), all buffers are still finalized, and a push over an
empty or all-empty input still issues exactly one network call with an
empty streams array. -/
theorem push_payload_skips_empty (elems : List PushElem) (opts : PushOptions)
    (transport : PushRequest → Except JsError JVal)
    (hval : allStream elems = true) :
    (push (.arr elems) opts transport).requests
        = [⟨lokiHeaders opts, pushPayload elems⟩]
    ∧ pushPayload elems
        = ((streamsOf elems).filter (fun s => !s.entries.isEmpty)).map Stream.collect
    ∧ ((∀ s ∈ streamsOf elems, s.entries = []) →
        (push (.arr elems) opts transport).requests = [⟨lokiHeaders opts, []⟩])
    ∧ (push (.arr elems) opts transport).trace.length = elems.length := by
  have hu := push_valid_unfold elems opts transport hval
  have hreq : (push (.arr elems) opts transport).requests
      = [⟨lokiHeaders opts, pushPayload elems⟩] := by
    cases htr : transport ⟨lokiHeaders opts, pushPayload elems⟩ with
    | ok r => rw [htr] at hu; rw [hu]
    | error e => rw [htr] at hu; rw [hu]
  have hchar : pushPayload elems
      = ((streamsOf elems).filter (fun s => !s.entries.isEmpty)).map Stream.collect :=
    flatMap_collect_eq_filter (streamsOf elems)
  refine ⟨hreq, hchar, ?_, ?_⟩
  · intro hempty
    have hnil : pushPayload elems = [] := by
      rw [hchar]
      have : (streamsOf elems).filter (fun s => !s.entries.isEmpty) = [] := by
        apply List.filter_eq_nil_iff.mpr
        intro s hs
        simp [hempty s hs]
      rw [this]
      rfl
    rw [hreq, hnil]
  · cases htr : transport ⟨lokiHeaders opts, pushPayload elems⟩ with
    | ok r => rw [htr] at hu; rw [hu]; simp
    | error e => rw [htr] at hu; rw [hu]; simp

theorem push_payload_skips_empty_witness :
    (push (.arr ([] : List PushElem)) ⟨.jundefined, .jundefined, .jundefined, .jundefined⟩
        (fun _ => .ok .jnull)).requests
      = [⟨[], []⟩]
    ∧ (push (.arr [.stream ⟨[("a", "b")], [], []⟩, .stream ⟨[("c", "d")], [.jstr "m"], []⟩])
        ⟨.jundefined, .jundefined, .jundefined, .jundefined⟩ (fun _ => .ok .jnull)).requests
      = [⟨[], [⟨[("c", "d")], [.jstr "m"]⟩]⟩] := by
  constructor
  · have h := (push_payload_skips_empty [] ⟨.jundefined, .jundefined, .jundefined, .jundefined⟩
      (fun _ => .ok .jnull) rfl).2.2.1 (by intro s hs; cases hs)
    exact h.trans rfl
  · have h := (push_payload_skips_empty
      [.stream ⟨[("a", "b")], [], []⟩, .stream ⟨[("c", "d")], [.jstr "m"], []⟩]
      ⟨.jundefined, .jundefined, .jundefined, .jundefined⟩ (fun _ => .ok .jnull) rfl).1
    exact h.trans rfl

/-- C4: a `push` input that is not an array, or contains an element that is
not a `Stream` instance, is rejected with the `InvalidInput`-classified
error before any network call. -/
theorem push_invalid_input_rejected (arg : PushArg) (opts : PushOptions)
    (transport : PushRequest → Except JsError JVal)
    (h : arg = PushArg.notArray
      ∨ ∃ elems, arg = PushArg.arr elems ∧ allStream elems = false) :
    (push arg opts transport).result
        = .error (.giga ⟨"Streams must be an array of Stream instances", none⟩)
    ∧ errKind ⟨"Streams must be an array of Stream instances", none⟩ = ErrKind.invalidInput
    ∧ (push arg opts transport).requests = [] := by
  rw [push_invalid_unfold arg opts transport h]
  exact ⟨rfl, rfl, rfl⟩

theorem push_invalid_input_rejected_witness :
    (push (.arr [.stream ⟨[], [.jstr "m"], []⟩, .notStream])
        ⟨.jundefined, .jundefined, .jundefined, .jundefined⟩ (fun _ => .ok .jnull)).result
      = .error (.giga ⟨"Streams must be an array of Stream instances", none⟩) :=
  (push_invalid_input_rejected (.arr [.stream ⟨[], [.jstr "m"], []⟩, .notStream])
    ⟨.jundefined, .jundefined, .jundefined, .jundefined⟩ (fun _ => .ok .jnull)
    (Or.inr ⟨_, rfl, rfl⟩)).1

/-- C10 (implicit): when `push` rejects with the validation error, no
`confirm()` or `undo()` is invoked on any input element and every buffer's
state is exactly what it was before the call. -/
theorem push_invalid_input_no_finalization (arg : PushArg) (opts : PushOptions)
    (transport : PushRequest → Except JsError JVal)
    (h : arg = PushArg.notArray
      ∨ ∃ elems, arg = PushArg.arr elems ∧ allStream elems = false) :
    (push arg opts transport).trace = [] ∧ (push arg opts transport).buffers = arg := by
  rw [push_invalid_unfold arg opts transport h]
  exact ⟨rfl, rfl⟩

theorem push_invalid_input_no_finalization_witness :
    (push (.arr [.notStream, .stream ⟨[], [.jstr "m"], []⟩])
        ⟨.jundefined, .jundefined, .jundefined, .jundefined⟩ (fun _ => .ok .jnull)).trace = []
    ∧ (push (.arr [.notStream, .stream ⟨[], [.jstr "m"], []⟩])
        ⟨.jundefined, .jundefined, .jundefined, .jundefined⟩ (fun _ => .ok .jnull)).buffers
      = .arr [.notStream, .stream ⟨[], [.jstr "m"], []⟩] :=
  push_invalid_input_no_finalization (.arr [.notStream, .stream ⟨[], [.jstr "m"], []⟩])
    ⟨.jundefined, .jundefined, .jundefined, .jundefined⟩ (fun _ => .ok .jnull) (Or.inr ⟨_, rfl, rfl⟩)

/-- C7: `queryRange` rejects with the `MissingParameter`-classified error,
issuing no network request, whenever the query string or either timestamp is
falsy (a literal `0` counts as absent under the truthiness check). -/
theorem queryRange_missing_parameter (ropts : ReadOptions) (q sv ev : JVal)
    (qo : QueryOptions) (transport : Request → Except JsError JVal)
    (h : jsTruthy q = false ∨ jsTruthy sv = false ∨ jsTruthy ev = false) :
    (queryRange ropts q sv ev qo transport).2 = []
    ∧ ((queryRange ropts q sv ev qo transport).1
          = .error (.giga ⟨"Query parameter is required", none⟩)
        ∨ (queryRange ropts q sv ev qo transport).1
          = .error (.giga ⟨"Start and end timestamps are required", none⟩))
    ∧ errKind ⟨"Query parameter is required", none⟩ = ErrKind.missingParameter
    ∧ errKind ⟨"Start and end timestamps are required", none⟩ = ErrKind.missingParameter := by
  unfold queryRange
  by_cases hq : jsTruthy q = true
  · have hse : ¬ (jsTruthy sv = true ∧ jsTruthy ev = true) := by
      rcases h with h | h | h
      · rw [hq] at h; cases h
      · exact fun hc => by have h1 := hc.1; rw [h] at h1; cases h1
      · exact fun hc => by have h2 := hc.2; rw [h] at h2; cases h2
    rw [if_pos hq, if_neg hse]
    exact ⟨rfl, Or.inr rfl, rfl, rfl⟩
  · rw [if_neg hq]
    exact ⟨rfl, Or.inl rfl, rfl, rfl⟩

theorem queryRange_missing_parameter_witness :
    (queryRange ⟨.jundefined⟩ (.jstr "x") .jundefined (.jnum 5)
        ⟨.jundefined, .jundefined, .jundefined, .jundefined, .jundefined⟩ (fun _ => .ok .jnull)).2 = []
    ∧ ((queryRange ⟨.jundefined⟩ (.jstr "x") .jundefined (.jnum 5)
        ⟨.jundefined, .jundefined, .jundefined, .jundefined, .jundefined⟩ (fun _ => .ok .jnull)).1
          = .error (.giga ⟨"Query parameter is required", none⟩)
        ∨ (queryRange ⟨.jundefined⟩ (.jstr "x") .jundefined (.jnum 5)
        ⟨.jundefined, .jundefined, .jundefined, .jundefined, .jundefined⟩ (fun _ => .ok .jnull)).1
          = .error (.giga ⟨"Start and end timestamps are required", none⟩)) := by
  have h := queryRange_missing_parameter ⟨.jundefined⟩ (.jstr "x") .jundefined (.jnum 5)
    ⟨.jundefined, .jundefined, .jundefined, .jundefined, .jundefined⟩ (fun _ => .ok .jnull)
    (Or.inr (Or.inl rfl))
  exact ⟨h.1, h.2.1⟩

theorem filter_appendIf_ne (k k' : String) (v : JVal) (h : ¬ k = k') :
    (appendIf k v).filter (fun p => p.1 = k') = [] := by
  unfold appendIf
  by_cases hv : jsTruthy v = true
  · rw [if_pos hv]
    simp [h]
  · rw [if_neg hv]
    rfl

theorem finishGetOp_snd (pfx : String) (transport : Request → Except JsError JVal)
    (req : Request) : (finishGetOp pfx transport req).2 = [req] := by
  unfold finishGetOp
  cases transport req <;> rfl

theorem filter_matchKey (xs : List String) :
    (xs.map (fun s => ("match[]", s))).filter
        (fun p : String × String => p.1 = "match[]")
      = xs.map (fun s => ("match[]", s)) := by
  induction xs with
  | nil => rfl
  | cons a t ih => simp [ih]

/-- C8: `series` rejects an absent (falsy) match with the
`MissingParameter`-classified error and a truthy non-string non-array match
with the `InvalidInput`-classified error, both without a network call; a
string match issues exactly one request whose parameters carry exactly one
`match[]` entry, and an array of strings issues exactly one request carrying
one `match[]` entry per element in input order. -/
theorem series_match_params (ropts : ReadOptions) (m : JVal) (qo : QueryOptions)
    (transport : Request → Except JsError JVal) :
    (jsTruthy m = false →
      (series ropts m qo transport).1
          = .error (.giga ⟨"Match parameter is required", none⟩)
      ∧ (series ropts m qo transport).2 = []
      ∧ errKind ⟨"Match parameter is required", none⟩ = ErrKind.missingParameter)
    ∧ (jsTruthy m = true → (∀ s, m ≠ .jstr s) → (∀ xs, m ≠ .jarr xs) →
      (series ropts m qo transport).1
          = .error (.giga ⟨"Match must be a string or array of strings", none⟩)
      ∧ (series ropts m qo transport).2 = []
      ∧ errKind ⟨"Match must be a string or array of strings", none⟩ = ErrKind.invalidInput)
    ∧ (∀ s : String, m = .jstr s → jsTruthy m = true →
      (series ropts m qo transport).2
          = [{ path := "/loki/api/v1/series", method := "GET",
               params := appendIf "start" qo.start ++ appendIf "end" qo.endV
                 ++ [("match[]", s)],
               headers := readHeaders ropts }]
      ∧ ∀ req ∈ (series ropts m qo transport).2,
          req.params.filter (fun p => p.1 = "match[]") = [("match[]", s)])
    ∧ (∀ xs : List String, m = .jarr (xs.map JVal.jstr) →
      (series ropts m qo transport).2
          = [{ path := "/loki/api/v1/series", method := "GET",
               params := appendIf "start" qo.start ++ appendIf "end" qo.endV
                 ++ xs.map (fun s => ("match[]", s)),
               headers := readHeaders ropts }]
      ∧ ∀ req ∈ (series ropts m qo transport).2,
          req.params.filter (fun p => p.1 = "match[]")
            = xs.map (fun s => ("match[]", s))) := by
  refine ⟨?_, ?_, ?_, ?_⟩
  · intro hm
    unfold series
    rw [if_neg (by rw [hm]; exact fun hc => Bool.noConfusion hc)]
    exact ⟨rfl, rfl, rfl⟩
  · intro hm hns hna
    unfold series
    rw [if_pos hm]
    cases m with
    | jstr s => exact absurd rfl (hns s)
    | jarr xs => exact absurd rfl (hna xs)
    | jundefined => cases hm
    | jnull => cases hm
    | jbool b => exact ⟨rfl, rfl, rfl⟩
    | jnum q => exact ⟨rfl, rfl, rfl⟩
    | jobj kvs => exact ⟨rfl, rfl, rfl⟩
  · intro s hs hm
    subst hs
    have h2 : (series ropts (.jstr s) qo transport).2 =
        [{ path := "/loki/api/v1/series", method := "GET",
           params := appendIf "start" qo.start ++ appendIf "end" qo.endV ++ [("match[]", s)],
           headers := readHeaders ropts }] := by
      unfold series
      rw [if_pos hm]
      exact finishGetOp_snd _ _ _
    refine ⟨h2, ?_⟩
    rw [h2]
    intro req hreq
    simp only [List.mem_singleton] at hreq
    subst hreq
    simp only [List.filter_append]
    rw [filter_appendIf_ne "start" "match[]" qo.start (by decide),
      filter_appendIf_ne "end" "match[]" qo.endV (by decide)]
    simp
  · intro xs hxs
    subst hxs
    have hmap : (xs.map JVal.jstr).map (fun mv => ("match[]", jsToString mv))
        = xs.map (fun s => ("match[]", s)) := by
      rw [List.map_map]
      rfl
    have h2 : (series ropts (.jarr (xs.map JVal.jstr)) qo transport).2 =
        [{ path := "/loki/api/v1/series", method := "GET",
           params := appendIf "start" qo.start ++ appendIf "end" qo.endV
             ++ xs.map (fun s => ("match[]", s)),
           headers := readHeaders ropts }] := by
      have h2a : (series ropts (.jarr (xs.map JVal.jstr)) qo transport).2 =
          [{ path := "/loki/api/v1/series", method := "GET",
             params := appendIf "start" qo.start ++ appendIf "end" qo.endV
               ++ (xs.map JVal.jstr).map (fun mv => ("match[]", jsToString mv)),
             headers := readHeaders ropts }] := by
        unfold series
        rw [if_pos (show jsTruthy (JVal.jarr (xs.map JVal.jstr)) = true from rfl)]
        exact finishGetOp_snd _ _ _
      rw [h2a, hmap]
    refine ⟨h2, ?_⟩
    rw [h2]
    intro req hreq
    simp only [List.mem_singleton] at hreq
    subst hreq
    simp only [List.filter_append]
    rw [filter_appendIf_ne "start" "match[]" qo.start (by decide),
      filter_appendIf_ne "end" "match[]" qo.endV (by decide)]
    rw [filter_matchKey]
    rfl

theorem series_match_params_witness :
    ((series ⟨.jundefined⟩ (.jnum 42) ⟨.jundefined, .jundefined, .jundefined, .jundefined, .jundefined⟩
        (fun _ => .ok .jnull)).1
      = .error (.giga ⟨"Match must be a string or array of strings", none⟩))
    ∧ ((series ⟨.jundefined⟩
        (.jarr [.jstr "\x7bjob=\"a\"\x7d", .jstr "\x7bjob=\"b\"\x7d"])
        ⟨.jundefined, .jundefined, .jundefined, .jundefined, .jundefined⟩ (fun _ => .ok .jnull)).2
      = [{ path := "/loki/api/v1/series", method := "GET",
           params := [("match[]", "\x7bjob=\"a\"\x7d"), ("match[]", "\x7bjob=\"b\"\x7d")],
           headers := [] }])
    ∧ (∀ req ∈ (series ⟨.jundefined⟩
        (.jarr [.jstr "\x7bjob=\"a\"\x7d", .jstr "\x7bjob=\"b\"\x7d"])
        ⟨.jundefined, .jundefined, .jundefined, .jundefined, .jundefined⟩ (fun _ => .ok .jnull)).2,
        req.params.filter (fun p => p.1 = "match[]")
          = [("match[]", "\x7bjob=\"a\"\x7d"), ("match[]", "\x7bjob=\"b\"\x7d")]) := by
  refine ⟨?_, ?_, ?_⟩
  · exact ((series_match_params ⟨.jundefined⟩ (.jnum 42)
      ⟨.jundefined, .jundefined, .jundefined, .jundefined, .jundefined⟩ (fun _ => .ok .jnull)).2.1
      (by decide) (fun s hc => JVal.noConfusion hc) (fun xs hc => JVal.noConfusion hc)).1
  · have h := ((series_match_params ⟨.jundefined⟩
      (.jarr [.jstr "\x7bjob=\"a\"\x7d", .jstr "\x7bjob=\"b\"\x7d"])
      ⟨.jundefined, .jundefined, .jundefined, .jundefined, .jundefined⟩ (fun _ => .ok .jnull)).2.2.2
      ["\x7bjob=\"a\"\x7d", "\x7bjob=\"b\"\x7d"] rfl).1
    exact h.trans rfl
  · exact ((series_match_params ⟨.jundefined⟩
      (.jarr [.jstr "\x7bjob=\"a\"\x7d", .jstr "\x7bjob=\"b\"\x7d"])
      ⟨.jundefined, .jundefined, .jundefined, .jundefined, .jundefined⟩ (fun _ => .ok .jnull)).2.2.2
      ["\x7bjob=\"a\"\x7d", "\x7bjob=\"b\"\x7d"] rfl).2

/-- C9: for every operation, a transport rejection with an already
classified error propagates it unchanged (same classification and status
code), and a rejection with any other error is wrapped into a classified
error carrying the operation-specific message text and the original status
code. -/
theorem transport_errors_wrapped (ropts : ReadOptions) (q sv ev ln : JVal) (ms : String)
    (qo : QueryOptions) (opts : PushOptions) (elems : List PushElem) (e : JsError)
    (hq : jsTruthy q = true) (hs : jsTruthy sv = true) (he : jsTruthy ev = true)
    (hl : jsTruthy ln = true) (hm : ms ≠ "") (hst : allStream elems = true) :
    (∀ pfx g, wrapT pfx (.giga g) = .giga g)
    ∧ (∀ pfx msg c, wrapT pfx (.other msg c) = .giga ⟨pfx ++ msg, c⟩)
    ∧ (query ropts q qo (fun _ => .error e)).1
        = .error (wrapT "Loki query failed: " e)
    ∧ (queryRange ropts q sv ev qo (fun _ => .error e)).1
        = .error (wrapT "Loki query range failed: " e)
    ∧ (labels ropts qo (fun _ => .error e)).1
        = .error (wrapT "Loki labels retrieval failed: " e)
    ∧ (labelValues ropts ln qo (fun _ => .error e)).1
        = .error (wrapT "Loki label values retrieval failed: " e)
    ∧ (series ropts (.jstr ms) qo (fun _ => .error e)).1
        = .error (wrapT "Loki series retrieval failed: " e)
    ∧ (push (.arr elems) opts (fun _ => .error e)).result
        = .error (wrapT "Loki push failed: " e) := by
  refine ⟨fun pfx g => rfl, fun pfx msg c => rfl, ?_, ?_, rfl, ?_, ?_, ?_⟩
  · unfold query
    rw [if_pos hq]
    rfl
  · unfold queryRange
    rw [if_pos hq, if_pos ⟨hs, he⟩]
    rfl
  · unfold labelValues
    rw [if_pos hl]
    rfl
  · unfold series
    rw [if_pos (by simp [jsTruthy, hm])]
    rfl
  · rw [push_valid_unfold elems opts _ hst]

theorem transport_errors_wrapped_witness :
    (query ⟨.jundefined⟩ (.jstr "up") ⟨.jundefined, .jundefined, .jundefined, .jundefined, .jundefined⟩
        (fun _ => .error (.other "socket hang up" (some 502)))).1
      = .error (.giga ⟨"Loki query failed: socket hang up", some 502⟩)
    ∧ (push (.arr [.stream ⟨[], [.jstr "m"], []⟩]) ⟨.jundefined, .jundefined, .jundefined, .jundefined⟩
        (fun _ => .error (.giga ⟨"over limit", some 429⟩))).result
      = .error (.giga ⟨"over limit", some 429⟩) := by
  constructor
  · have h := (transport_errors_wrapped ⟨.jundefined⟩ (.jstr "up") (.jnum 1) (.jnum 2)
      (.jstr "l") "m" ⟨.jundefined, .jundefined, .jundefined, .jundefined, .jundefined⟩
      ⟨.jundefined, .jundefined, .jundefined, .jundefined⟩ [.stream ⟨[], [.jstr "m"], []⟩]
      (.other "socket hang up" (some 502)) rfl rfl rfl rfl (by decide) rfl).2.2.1
    exact h.trans rfl
  · have h := (transport_errors_wrapped ⟨.jundefined⟩ (.jstr "up") (.jnum 1) (.jnum 2)
      (.jstr "l") "m" ⟨.jundefined, .jundefined, .jundefined, .jundefined, .jundefined⟩
      ⟨.jundefined, .jundefined, .jundefined, .jundefined⟩ [.stream ⟨[], [.jstr "m"], []⟩]
      (.giga ⟨"over limit", some 429⟩) rfl rfl rfl rfl (by decide) rfl).2.2.2.2.2.2.2
    exact h.trans rfl

end Qryn
